import Mathlib

/-!
Verification of the edgeimpulse/linux-sdk-go core against its specification.

The Go code is shallowly embedded: pure computations become Lean functions,
stateful goroutine bodies become functions from their inputs (channel
receives, stream reads, transport behaviours) to the trace of effects they
perform (channel sends, channel closes, transport writes).  Machine integers
are modelled as Nat/Int; float64-valued fields that no claim touches
(interval_ms, frequency, has_anomaly, timing) are omitted from the embedding.
-/

namespace EdgeImpulse

/-- SensorType constants from runner.go. -/
inductive SensorType where
  | unknown
  | microphone
  | accelerometer
  | camera
deriving DecidableEq, Repr

/-- The Go string value of each SensorType constant (runner.go 98-103). -/
def sensorTypeName : SensorType → String
  | .unknown => "unknown"
  | .microphone => "microphone"
  | .accelerometer => "accelerometer"
  | .camera => "camera"

/-- ModelParameters from runner.go (float64 fields omitted: no claim uses them). -/
structure ModelParameters where
  modelType : String
  sensor : Int
  sensorType : SensorType
  inputFeaturesCount : Int
  imageInputHeight : Int
  imageInputWidth : Int
  imageChannelCount : Int
  labels : List String
  labelCount : Int
deriving DecidableEq, Repr

/-- Project metadata from runner.go. -/
structure Project where
  deployVersion : Int
  id : Int
  name : String
  owner : String
deriving DecidableEq, Repr

/-- The post-handshake normalization performed by NewRunnerProcess
(runner.go 304-318): an empty model_type defaults to "classification",
and the numeric sensor code is mapped to a SensorType by the switch. -/
def finishHello (mp : ModelParameters) : ModelParameters :=
  let mp := if mp.modelType = "" then { mp with modelType := "classification" } else mp
  if mp.sensor = 1 then { mp with sensorType := .microphone }
  else if mp.sensor = 2 then { mp with sensorType := .accelerometer }
  else if mp.sensor = 3 then { mp with sensorType := .camera }
  else { mp with sensorType := .unknown }

/-! ## Runner Close (runner.go 391-405) -/

/-- The handles a RunnerProcess may hold at Close time: a context cancel
function, a socket connection, and a private temp dir.  A partially
constructed runner (construction failed early) has some of them unset. -/
structure RunnerHandles where
  hasCancel : Bool
  hasConn : Bool
  tempDir : String
deriving DecidableEq, Repr

/-- Whether the side-effecting cleanup calls fail internally.  conn.Close and
os.RemoveAll both return errors in Go; Close ignores both. -/
structure CloseEnv where
  connCloseFails : Bool
  removeAllFails : Bool
deriving DecidableEq, Repr

/-- Cleanup actions Close performs. -/
inductive CloseEffect where
  | cancelProcess
  | connClose
  | removeTempDir (dir : String)
deriving DecidableEq, Repr

/-- RunnerProcess.Close (runner.go 391-405): under the mutex, cancel the
child process if a cancel function exists, close the connection if open
(result discarded), remove the temp dir if one was created (result
discarded), and return nil unconditionally. -/
def closeRunner (r : RunnerHandles) (env : CloseEnv) : List CloseEffect × Option String :=
  let effs :=
    (if r.hasCancel then [CloseEffect.cancelProcess] else []) ++
    (if r.hasConn then [CloseEffect.connClose] else []) ++
    (if r.tempDir ≠ "" then [CloseEffect.removeTempDir r.tempDir] else [])
  (effs, none)

/-! ## Pipeline constructors (audio NewClassifier, image NewClassifier) -/

/-- What the audio NewClassifier has created when it returns successfully:
the Events channel (capacity 1) and the two started goroutines
(capture and classify). -/
structure AudioPipeline where
  eventsCapacity : Nat
  captureStarted : Bool
  classifyStarted : Bool
deriving DecidableEq, Repr

/-- audio.NewClassifier's construction-time checks (src/unnamed/part_002
47-60): if the model's sensor type is not microphone it returns the
sensor-mismatch error before creating channels or starting goroutines;
otherwise it creates the pipeline and starts both activities. -/
def audioNewClassifier (mp : ModelParameters) : Except String AudioPipeline :=
  if mp.sensorType ≠ SensorType.microphone then
    .error ("sensor for this model was \"" ++ sensorTypeName mp.sensorType ++
      "\", expected microphone")
  else
    .ok { eventsCapacity := 1, captureStarted := true, classifyStarted := true }

/-- What the image NewClassifier has created on success: the Events channel
(capacity 1), the stop channel, and the started processing goroutine. -/
structure ImagePipeline where
  eventsCapacity : Nat
  stopCapacity : Nat
  loopStarted : Bool
deriving DecidableEq, Repr

/-- image.NewClassifier's construction-time checks (src/image/classifier.go
57-72): if the model's sensor type is not camera it returns the
sensor-mismatch error before creating channels or starting the goroutine. -/
def imageNewClassifier (mp : ModelParameters) : Except String ImagePipeline :=
  if mp.sensorType ≠ SensorType.camera then
    .error ("sensor for this model was \"" ++ sensorTypeName mp.sensorType ++
      "\", expected camera")
  else
    .ok { eventsCapacity := 1, stopCapacity := 1, loopStarted := true }

/-! ## Wire framing: the trailing sentinel byte (runner.go 334-345) -/

/-- After json.Decoder.Decode returns, the unconsumed bytes of the stream are
split between the decoder's lookahead buffer and the still-unread transport.
transact drains the sentinel (runner.go 341-345): it reads everything left in
the decoder's buffer (ioutil.ReadAll on dec.Buffered(), which cannot fail on
the in-memory reader), and only when that yields no bytes does it read one
more byte directly from the connection.  Returns the consumed bytes and the
transport bytes remaining. -/
def drainSentinel (buffered transport : List Nat) : List Nat × List Nat :=
  if buffered.length = 0 then
    match transport with
    | [] => (buffered, transport)
    | b :: rest => (buffered ++ [b], rest)
  else (buffered, transport)

/-! ## Classify transactions (runner.go 325-351, 371-388) -/

/-- RunnerResponse from runner.go 57-63 (the embedded response payload and
float64 timing fields are not inspected by any claim and are omitted). -/
structure RunnerResponse where
  id : Int
  success : Bool
  error : String
deriving DecidableEq, Repr

/-- How the transport behaves during one transaction: the request write can
fail, the response decode can fail (connection error, 5-second deadline,
malformed JSON), or a response is decoded. -/
inductive TransportBehavior where
  | writeError (msg : String)
  | readError (msg : String)
  | reply (resp : RunnerResponse)
deriving DecidableEq, Repr

/-- IO operations one transaction performs on the transport. -/
inductive RunnerEffect where
  | writeRequest (id : Int)
  | readResponse
  | drainSentinelByte
deriving DecidableEq, Repr

/-- The mutable per-transaction fields of RunnerProcess (runner.go 32-41):
lastID is the only one; the Go struct has no field that records a failed
transaction. -/
structure RunnerProcessState where
  lastID : Int
deriving DecidableEq, Repr

/-- transact (runner.go 325-351): write the JSON request (a write failure
aborts), decode the response (a decode failure aborts), drain the sentinel
byte, and finally report a success=false response as an error. -/
def transact (id : Int) (b : TransportBehavior) :
    List RunnerEffect × Except String RunnerResponse :=
  match b with
  | .writeError m => ([.writeRequest id], .error ("writing json to model: " ++ m))
  | .readError m => ([.writeRequest id, .readResponse],
      .error ("reading json from model: " ++ m))
  | .reply r => ([.writeRequest id, .readResponse, .drainSentinelByte],
      if r.success then .ok r else .error ("classifying: " ++ r.error))

/-- Classify (runner.go 378-388): take the mutex, assign the next id, and run
the transaction — unconditionally, whatever earlier calls returned. -/
def runnerClassify (st : RunnerProcessState) (b : TransportBehavior) :
    RunnerProcessState × List RunnerEffect × Except String RunnerResponse :=
  let id := st.lastID + 1
  (⟨id⟩, (transact id b).1, (transact id b).2)

/-! ## Audio sliding window (src/unnamed/part_002 95-135) -/

/-- The capture goroutine's window: modelSamples (length InputFeaturesCount,
zero-initialised by make) and modelSampleCount.  Samples are the
little-endian int16 values decoded from the interval buffer. -/
structure WindowState where
  buf : List Int
  count : Nat
deriving DecidableEq, Repr

/-- One loop iteration's window update (src/unnamed/part_002 102-126) on an
interval of decoded samples: if the interval is longer than the window only
its tail is used (the byte-level tail selection commutes with the aligned
int16 decode); if the new samples overrun the window the live samples are
shifted down in place (copy of buf from index n, stale values remaining in
the tail) and then the interval samples are written at the insert position. -/
def appendInterval (L : Nat) (st : WindowState) (iv : List Int) : WindowState :=
  let isc := iv.length
  let sampleCount := if isc > L then L else isc
  let kept := iv.drop (isc - sampleCount)
  let start := st.count
  if start + sampleCount > L then
    let n := start + sampleCount - L
    let shifted := st.buf.drop n ++ st.buf.drop (L - n)
    { buf := shifted.take (start - n) ++ kept ++ shifted.drop (start - n + sampleCount),
      count := (st.count - n) + sampleCount }
  else
    { buf := st.buf.take start ++ kept ++ st.buf.drop (start + sampleCount),
      count := st.count + sampleCount }

/-- The window after K consecutive interval reads, starting from the
zero-initialised empty window. -/
def audioWindowRun (L : Nat) (intervals : List (List Int)) : WindowState :=
  intervals.foldl (appendInterval L) ⟨List.replicate L 0, 0⟩

/-- The samples of one interval the capture loop actually decodes: the whole
interval when it fits the window, otherwise only its tail of window length
(src/unnamed/part_002 102-108). -/
def keptPart (L : Nat) (iv : List Int) : List Int :=
  iv.drop (iv.length - min iv.length L)

/-! ## Audio pipeline goroutines as effect traces (src/unnamed/part_002) -/

/-- A ClassifyEvent as the audio classifier emits it: an error event, or a
success event carrying the response and the classified samples. -/
inductive AudioEvent where
  | errEv (msg : String)
  | okEv (resp : RunnerResponse) (samples : List Int)
deriving DecidableEq, Repr

/-- Channel operations the audio goroutines perform. -/
inductive AudioEff where
  | sendSamples (s : List Int)
  | dropSamples (s : List Int)
  | sendEvent (e : AudioEvent)
  | closeSamples
  | closeEvents
deriving DecidableEq, Repr

/-- The audio classify goroutine (src/unnamed/part_002 73-87), as the trace
of channel operations it performs given the snapshots it receives before the
samples channel closes: on a Classify error it sends the error event and
returns, receiving no further snapshots; on success it sends the success
event and loops; when the channel closes it returns. -/
def audioClassifyRun (f : List Int → Except String RunnerResponse) :
    List (List Int) → List AudioEff
  | [] => []
  | s :: rest =>
    match f s with
    | .error e => [.sendEvent (.errEv e)]
    | .ok r => .sendEvent (.okEv r s) :: audioClassifyRun f rest

/-- The audio capture goroutine (src/unnamed/part_002 89-144), as the trace
of channel operations it performs: each successful interval read updates the
window via appendInterval and, once the window is full, attempts a
non-blocking send of a snapshot of the window (ready tells, per tick,
whether the classify worker was ready to receive; otherwise the snapshot is
dropped).  The first failing read — modelled as the end of reads — sends the
read-error event and returns, whereupon the deferred close of the samples
channel runs. -/
def captureRun (L : Nat) (ready : Nat → Bool) (st : WindowState) (tick : Nat)
    (reads : List (List Int)) (errMsg : String) : List AudioEff :=
  match reads with
  | [] => [.sendEvent (.errEv ("reading audio: " ++ errMsg)), .closeSamples]
  | iv :: rest =>
    let st1 := appendInterval L st iv
    (if st1.count < L then [] else
      if ready tick then [AudioEff.sendSamples st1.buf]
      else [AudioEff.dropSamples st1.buf])
    ++ captureRun L ready st1 (tick + 1) rest errMsg

/-! ## Image pipeline loop (src/image/classifier.go 80-170) -/

/-- An incoming event from the image recorder: an error, or an image — the
image abstracted to the feature vector its normalization produces. -/
inductive ImageInput where
  | errEv (msg : String)
  | img (features : List Nat)
deriving DecidableEq, Repr

/-- A ClassifyEvent as the image classifier emits it. -/
inductive ImageOut where
  | errEv (msg : String)
  | okEv (resp : RunnerResponse) (features : List Nat)
deriving DecidableEq, Repr

/-- The image classifier goroutine (src/image/classifier.go 80-170) in a run
where Close is not called: a recorder error event is forwarded and the loop
continues; an image is classified, and both a Classify error and a success
produce one event after which the loop continues with the next input. -/
def imageClassifyRun (f : List Nat → Except String RunnerResponse) :
    List ImageInput → List ImageOut
  | [] => []
  | .errEv e :: rest => .errEv e :: imageClassifyRun f rest
  | .img d :: rest =>
    match f d with
    | .error e => .errEv e :: imageClassifyRun f rest
    | .ok r => .okEv r d :: imageClassifyRun f rest

/-! ## Image pixel packing (src/image/classifier.go 105-141) -/

/-- A pixel colour as Go's color.Color.RGBA() reports it: 16-bit components
(alpha unused by the packing loop, which discards it). -/
structure Color16 where
  r : Nat
  g : Nat
  b : Nat
deriving DecidableEq, Repr

/-- RGBA() of an opaque NRGBA pixel (Go image/color: each 8-bit component c
becomes c | c shifted up 8 bits, i.e. c * 0x101, and alpha 0xff leaves it
unchanged). -/
def nrgbaOpaque (r g b : Nat) : Color16 := ⟨r * 257, g * 257, b * 257⟩

/-- RGBA() of a Gray pixel of intensity y (Go image/color: y | y shifted up
8 bits on all three components). -/
def grayColor (y : Nat) : Color16 := ⟨y * 257, y * 257, y * 257⟩

/-- The per-pixel feature (classifier.go 133-138): shift each 16-bit
component down to 8 bits and pack them as (r shifted up 16) | (g shifted up
8) | b.  The same expression is evaluated for 3-channel (NRGBA) and
1-channel (Gray) images alike. -/
def packPixel (c : Color16) : Nat :=
  (((c.r >>> 8) <<< 16) ||| ((c.g >>> 8) <<< 8)) ||| (c.b >>> 8)

/-- The feature vector (classifier.go 129-141): one feature per pixel from
the y-outer, x-inner loop over the model-sized image, appended in order —
row-major.  pixelAt x y stands for img.At(x, y).RGBA(). -/
def imageFeatures (w h : Nat) (pixelAt : Nat → Nat → Color16) : List Nat :=
  (List.range h).flatMap (fun y => (List.range w).map (fun x => packPixel (pixelAt x y)))

/-! ## Serialization of concurrent Classify calls (runner.go 378-388) -/

/-- Program points of one Classify call: before Lock; holding the lock, not
yet written; request written; response read; after Unlock. -/
inductive ThreadPC where
  | start
  | locked
  | wrote
  | readDone
  | finished
deriving DecidableEq, Repr

/-- One transport IO event, tagged with the calling thread.  A writeReq
event stands for all the bytes of that thread's JSON request, a readResp
event for all the bytes of the response it reads: the lock is held across
both, so even byte-level interleaving is excluded. -/
inductive WireOp where
  | writeReq
  | readResp
deriving DecidableEq, Repr

/-- Two concurrent Classify callers (threads false and true) on one Runner:
each thread's program point, the mutex owner, and the ordered log of
transport IO events as the model process observes them. -/
structure MutexState where
  pcF : ThreadPC
  pcT : ThreadPC
  owner : Option Bool
  log : List (Bool × WireOp)
deriving DecidableEq, Repr

/-- The program point of one thread. -/
def getPC (s : MutexState) (t : Bool) : ThreadPC :=
  match t with
  | true => s.pcT
  | false => s.pcF

/-- Advance one thread's program point. -/
def setPC (s : MutexState) (t : Bool) (p : ThreadPC) : MutexState :=
  match t with
  | true => { s with pcT := p }
  | false => { s with pcF := p }

/-- Interleaving semantics of two concurrent Classify calls (runner.go
378-388): a thread acquires the mutex only when free, then writes its
request, reads its response, and releases — transport IO happens only
between Lock and Unlock, exactly as in Classify's deferred-unlock body. -/
inductive MutexStep : MutexState → MutexState → Prop where
  | lock (s : MutexState) (t : Bool) (hpc : getPC s t = .start) (hfree : s.owner = none) :
      MutexStep s { setPC s t .locked with owner := some t }
  | write (s : MutexState) (t : Bool) (hpc : getPC s t = .locked) :
      MutexStep s { setPC s t .wrote with log := s.log ++ [(t, .writeReq)] }
  | read (s : MutexState) (t : Bool) (hpc : getPC s t = .wrote) :
      MutexStep s { setPC s t .readDone with log := s.log ++ [(t, .readResp)] }
  | unlock (s : MutexState) (t : Bool) (hpc : getPC s t = .readDone) :
      MutexStep s { setPC s t .finished with owner := none }

/-- Both callers about to call Classify; empty log, mutex free. -/
def mutexInit : MutexState := ⟨.start, .start, none, []⟩

/-- States the two concurrent Classify calls can actually reach. -/
def MutexReachable : MutexState → Prop :=
  Relation.ReflTransGen MutexStep mutexInit

/-- Whether a thread is inside Classify's critical section. -/
def inCS : ThreadPC → Bool
  | .locked => true
  | .wrote => true
  | .readDone => true
  | _ => false

/-- The IO events one thread has contributed, determined by its program
point. -/
def blk (t : Bool) : ThreadPC → List (Bool × WireOp)
  | .start => []
  | .locked => []
  | .wrote => [(t, .writeReq)]
  | .readDone => [(t, .writeReq), (t, .readResp)]
  | .finished => [(t, .writeReq), (t, .readResp)]

/-- A log is serialized when one thread's events form a contiguous block
followed by the other thread's events: the two transactions are never
interleaved. -/
def Serialized (l : List (Bool × WireOp)) : Prop :=
  ∃ (t : Bool) (a b : List (Bool × WireOp)), l = a ++ b ∧
    (∀ e ∈ a, e.1 = t) ∧ (∀ e ∈ b, e.1 = !t)

/-- The inductive invariant: the mutex owner is exactly the thread inside
the critical section, and the log is one thread's block followed by the
other's, the second nonempty only once the first finished. -/
def MutexInv (s : MutexState) : Prop :=
  (∀ t : Bool, s.owner = some t ↔ inCS (getPC s t) = true) ∧
  ∃ t : Bool, s.log = blk t (getPC s t) ++ blk (!t) (getPC s (!t)) ∧
    (blk (!t) (getPC s (!t)) ≠ [] → getPC s t = .finished)

end EdgeImpulse

namespace EdgeImpulse

/-- Claim C6: for every valid handshake response, ModelParameters.SensorType is a
pure function of the numeric sensor code — 1 maps to microphone, 2 to
accelerometer, 3 to camera, and any other value to unknown (finishHello is
total, so the mapping never fails) — and an absent or empty model_type field
(Go zero value "") always yields model type "classification". -/
theorem handshake_sensor_mapping (mp : ModelParameters) :
    (mp.sensor = 1 → (finishHello mp).sensorType = SensorType.microphone) ∧
    (mp.sensor = 2 → (finishHello mp).sensorType = SensorType.accelerometer) ∧
    (mp.sensor = 3 → (finishHello mp).sensorType = SensorType.camera) ∧
    (mp.sensor ≠ 1 → mp.sensor ≠ 2 → mp.sensor ≠ 3 →
      (finishHello mp).sensorType = SensorType.unknown) ∧
    (mp.modelType = "" → (finishHello mp).modelType = "classification") := by
  obtain ⟨mt, s, st, a, b, c, d, e, f⟩ := mp
  by_cases hmt : mt = "" <;>
    refine ⟨?_, ?_, ?_, ?_, ?_⟩ <;> intros <;> simp_all [finishHello] <;>
    split_ifs <;> rfl

theorem handshake_sensor_mapping_witness :
    (finishHello ⟨"", 7, .unknown, 4, 0, 0, 0, [], 0⟩).sensorType = SensorType.unknown ∧
    (finishHello ⟨"", 7, .unknown, 4, 0, 0, 0, [], 0⟩).modelType = "classification" := by
  have h := handshake_sensor_mapping ⟨"", 7, .unknown, 4, 0, 0, 0, [], 0⟩
  exact ⟨h.2.2.2.1 (by decide) (by decide) (by decide), h.2.2.2.2 rfl⟩

/-- Claim C10: for every RunnerProcess in any state — fully constructed,
partially constructed after a failed construction (some handles unset), or
already closed — every call to Close returns nil, regardless of whether the
underlying connection close or directory removal fails internally. -/
theorem close_always_nil (r : RunnerHandles) (env : CloseEnv) :
    (closeRunner r env).2 = none := rfl

/-- Claim C8: constructing an audio pipeline with ModelParameters whose
SensorType is not microphone always fails with the sensor-mismatch error
before any capture begins (no pipeline value, hence no goroutine, is ever
produced), and symmetrically constructing an image pipeline with SensorType
not camera always fails with the sensor-mismatch error before any image is
consumed. -/
theorem sensor_mismatch_rejected (mp mq : ModelParameters)
    (ha : mp.sensorType ≠ SensorType.microphone)
    (hi : mq.sensorType ≠ SensorType.camera) :
    audioNewClassifier mp =
      .error ("sensor for this model was \"" ++ sensorTypeName mp.sensorType ++
        "\", expected microphone") ∧
    (∀ p, audioNewClassifier mp ≠ .ok p) ∧
    imageNewClassifier mq =
      .error ("sensor for this model was \"" ++ sensorTypeName mq.sensorType ++
        "\", expected camera") ∧
    (∀ p, imageNewClassifier mq ≠ .ok p) := by
  unfold audioNewClassifier imageNewClassifier
  rw [if_pos ha, if_pos hi]
  exact ⟨rfl, fun p => by simp, rfl, fun p => by simp⟩

/-- Claim C1: for every transaction whose remaining unconsumed bytes after
decoding the JSON response are exactly the one 0x00 sentinel the model
process appended — whether that byte sits in the decoder's lookahead buffer
or is still unread on the transport — the drain consumes exactly that one
byte and no more, leaving the transport empty so the next transaction's
framing is aligned. -/
theorem sentinel_consumed_exactly (buffered transport : List Nat)
    (h : buffered ++ transport = [0]) :
    (drainSentinel buffered transport).1 = [0] ∧
    (drainSentinel buffered transport).2 = [] := by
  rcases buffered with _ | ⟨b, bs⟩
  · simp only [List.nil_append] at h
    subst h
    exact ⟨rfl, rfl⟩
  · have hb : b = 0 ∧ bs = [] ∧ transport = [] := by
      cases bs <;> cases transport <;> simp_all
    obtain ⟨rfl, rfl, rfl⟩ := hb
    exact ⟨rfl, rfl⟩

theorem sentinel_consumed_exactly_witness :
    ([] : List Nat) ++ [0] = [0] ∧
    (drainSentinel [] [0]).1 = [0] ∧ (drainSentinel [] [0]).2 = [] :=
  ⟨rfl, sentinel_consumed_exactly [] [0] rfl⟩

/-- Claim C4 fails on the code: after a transport (read) error during one
transaction, the very next Classify call still writes a request to the
transport and, when the transport replies successfully, returns that success
— it does not fail with a NotReady error and it does perform IO. -/
theorem classify_after_error_counterexample :
    (runnerClassify ⟨1⟩ (.readError "read unix: i/o timeout")).2.2 =
      .error "reading json from model: read unix: i/o timeout" ∧
    (runnerClassify (runnerClassify ⟨1⟩ (.readError "read unix: i/o timeout")).1
        (.reply ⟨3, true, ""⟩)).2.2 = .ok ⟨3, true, ""⟩ ∧
    RunnerEffect.writeRequest 3 ∈
      (runnerClassify (runnerClassify ⟨1⟩ (.readError "read unix: i/o timeout")).1
        (.reply ⟨3, true, ""⟩)).2.1 := by
  refine ⟨rfl, rfl, ?_⟩
  simp [runnerClassify, transact]

/-- Claim C4 amended: a RunnerProcess records no failed state.  After a
transport error, every subsequent Classify call assigns the next id, writes
the request to the transport (re-attempting IO), and returns an outcome
determined solely by the transport's behaviour during that call; there is no
NotReady error. -/
theorem classify_stateless_retry (st : RunnerProcessState) (b : TransportBehavior) :
    (runnerClassify st b).1.lastID = st.lastID + 1 ∧
    RunnerEffect.writeRequest (st.lastID + 1) ∈ (runnerClassify st b).2.1 ∧
    (runnerClassify st b).2.2 = (transact (st.lastID + 1) b).2 := by
  refine ⟨rfl, ?_, rfl⟩
  cases b <;> simp [runnerClassify, transact]

/-- Claim C2 fails on the code for the audio pipeline: with a runner whose
Classify errors, the audio classify activity given two snapshots emits the
first error event and terminates, never processing the second snapshot (the
claim requires it to continue). -/
theorem audio_error_stops_counterexample :
    audioClassifyRun (fun _ => .error "boom") [[5], [6]] =
      [.sendEvent (.errEv "boom")] := rfl

/-- Claim C2 amended: when an image input's Classify call errors, the image
pipeline emits a ClassifyEvent carrying that error and continues with the
subsequent inputs exactly as it would have (one event per input overall);
the audio pipeline's classify activity instead emits the error event and
terminates, processing no further snapshots. -/
theorem classify_error_continuation
    (f : List Nat → Except String RunnerResponse)
    (g : List Int → Except String RunnerResponse)
    (l : List ImageInput) (d : List Nat) (restI : List ImageInput)
    (s : List Int) (rest : List (List Int))
    (e e2 : String) (hf : f d = .error e2) (hg : g s = .error e) :
    imageClassifyRun f (.img d :: restI) = .errEv e2 :: imageClassifyRun f restI ∧
    (imageClassifyRun f l).length = l.length ∧
    audioClassifyRun g (s :: rest) = [.sendEvent (.errEv e)] := by
  refine ⟨?_, ?_, ?_⟩
  · simp [imageClassifyRun, hf]
  · induction l with
    | nil => rfl
    | cons x xs ih =>
      cases x with
      | errEv e1 => simpa [imageClassifyRun] using ih
      | img d1 => cases hf1 : f d1 <;> simp [imageClassifyRun, hf1, ih]
  · simp [audioClassifyRun, hg]

theorem classify_error_continuation_witness :
    imageClassifyRun (fun _ => .error "x") [.img [1], .img [2]] =
      .errEv "x" :: imageClassifyRun (fun _ => .error "x") [.img [2]] ∧
    (imageClassifyRun (fun _ => .error "x") [.img [1], .errEv "y"]).length = 2 ∧
    audioClassifyRun (fun _ => .error "boom") [[5], [6]] =
      [.sendEvent (.errEv "boom")] :=
  classify_error_continuation (fun _ => .error "x") (fun _ => .error "boom")
    [.img [1], .errEv "y"] [1] [.img [2]] [5] [[6]] "boom" "x" rfl rfl

/-- Claim C3 fails on the code: in a complete run of both audio activities
(capture hits a fatal read error, emits it and closes the samples channel;
the classify activity errors and stops), neither activity ever closes the
Events channel, so a consumer receiving after the final event blocks rather
than observing end-of-stream. -/
theorem events_never_closed_counterexample :
    AudioEff.closeEvents ∉ captureRun 2 (fun _ => true) ⟨[0, 0], 0⟩ 0 [[1, 2]] "EOF" ∧
    AudioEff.closeEvents ∉ audioClassifyRun (fun _ => .error "x") [[1, 2]] := by
  decide

/-- Claim C3 amended: whenever the audio capture activity encounters a fatal
read error it emits the read-error event and closes the samples channel
feeding the classify activity, which terminates that activity (on channel
close it returns, emitting nothing further); but the Events channel is never
closed by either activity, so a consumer does not observe end-of-stream. -/
theorem audio_fatal_read_error_shape (L : Nat) (ready : Nat → Bool)
    (st : WindowState) (tick : Nat) (reads : List (List Int)) (errMsg : String)
    (f : List Int → Except String RunnerResponse) (received : List (List Int)) :
    (∃ pre, captureRun L ready st tick reads errMsg =
      pre ++ [.sendEvent (.errEv ("reading audio: " ++ errMsg)), .closeSamples]) ∧
    audioClassifyRun f [] = [] ∧
    AudioEff.closeEvents ∉ captureRun L ready st tick reads errMsg ∧
    AudioEff.closeEvents ∉ audioClassifyRun f received := by
  refine ⟨?_, rfl, ?_, ?_⟩
  · induction reads generalizing st tick with
    | nil => exact ⟨[], rfl⟩
    | cons iv rest ih =>
      obtain ⟨pre, hpre⟩ := ih (appendInterval L st iv) (tick + 1)
      refine ⟨(if (appendInterval L st iv).count < L then [] else
        if ready tick then [AudioEff.sendSamples (appendInterval L st iv).buf]
        else [AudioEff.dropSamples (appendInterval L st iv).buf]) ++ pre, ?_⟩
      simp only [captureRun, hpre, List.append_assoc]
  · induction reads generalizing st tick with
    | nil => simp [captureRun]
    | cons iv rest ih =>
      simp only [captureRun, List.mem_append]
      push_neg
      refine ⟨?_, ih (appendInterval L st iv) (tick + 1)⟩
      split <;> simp_all <;> split <;> simp_all
  · induction received with
    | nil => simp [audioClassifyRun]
    | cons s rest ih =>
      simp only [audioClassifyRun]
      cases f s <;> simp_all

theorem sensor_mismatch_rejected_witness :
    audioNewClassifier ⟨"classification", 3, .camera, 4, 0, 0, 0, [], 0⟩ =
      .error "sensor for this model was \"camera\", expected microphone" ∧
    imageNewClassifier ⟨"classification", 1, .microphone, 4, 0, 0, 0, [], 0⟩ =
      .error "sensor for this model was \"microphone\", expected camera" := by
  have h := sensor_mismatch_rejected
    ⟨"classification", 3, .camera, 4, 0, 0, 0, [], 0⟩
    ⟨"classification", 1, .microphone, 4, 0, 0, 0, [], 0⟩
    (by decide) (by decide)
  exact ⟨h.1, h.2.2.1⟩

lemma mul257_shiftRight (x : Nat) (h : x < 256) : (x * 257) >>> 8 = x := by
  rw [Nat.shiftRight_eq_div_pow]
  norm_num
  omega

lemma imageFeatures_succ (w h : Nat) (f : Nat → Nat → Color16) :
    imageFeatures w (h + 1) f =
      imageFeatures w h f ++ (List.range w).map (fun x => packPixel (f x h)) := by
  rw [imageFeatures, imageFeatures, List.range_succ, List.flatMap_append]
  simp

lemma imageFeatures_length (w h : Nat) (f : Nat → Nat → Color16) :
    (imageFeatures w h f).length = h * w := by
  induction h with
  | zero => simp [imageFeatures]
  | succ h ih => rw [imageFeatures_succ]; simp [ih, Nat.succ_mul]

lemma imageFeatures_getElem (w h : Nat) (f : Nat → Nat → Color16) (x y : Nat)
    (hx : x < w) (hy : y < h) :
    (imageFeatures w h f)[y * w + x]? = some (packPixel (f x y)) := by
  induction h with
  | zero => omega
  | succ h ih =>
    rw [imageFeatures_succ]
    rcases Nat.lt_or_ge y h with hy2 | hy2
    · rw [List.getElem?_append_left]
      · exact ih hy2
      · rw [imageFeatures_length]
        have h1 : (y + 1) * w ≤ h * w := Nat.mul_le_mul_right w hy2
        rw [Nat.succ_mul] at h1
        omega
    · have hy3 : y = h := by omega
      subst hy3
      rw [List.getElem?_append_right (by rw [imageFeatures_length]; omega)]
      have hidx : y * w + x - (imageFeatures w y f).length = x := by
        rw [imageFeatures_length]; omega
      rw [hidx, List.getElem?_map, List.getElem?_range hx]
      rfl

/-- Claim C7 fails on the code for 1-channel models: the packing loop runs
unchanged on Gray pixels, so a pixel with grayscale intensity 1 is packed
into the feature 65793 = (1 shifted up 16) | (1 shifted up 8) | 1, not into
its grayscale intensity 1. -/
theorem gray_packing_counterexample :
    packPixel (grayColor 1) = 65793 ∧ (65793 : Nat) ≠ 1 := by decide

/-- Claim C7 amended: each pixel of the normalized image is packed into one
numeric feature in row-major order; for 3-channel models the feature of an
opaque NRGBA pixel equals the 24-bit RGB integer (R shifted up 16) | (G
shifted up 8) | B; for 1-channel models the feature is the grayscale
intensity replicated into all three bytes of that 24-bit integer — (Y
shifted up 16) | (Y shifted up 8) | Y — not the bare intensity. -/
theorem pixel_packing_rowmajor (w h : Nat) (f : Nat → Nat → Color16)
    (x y r g b iy : Nat) (hx : x < w) (hy : y < h)
    (hr : r < 256) (hg : g < 256) (hb : b < 256) (hiy : iy < 256) :
    (imageFeatures w h f)[y * w + x]? = some (packPixel (f x y)) ∧
    packPixel (nrgbaOpaque r g b) = ((r <<< 16) ||| (g <<< 8)) ||| b ∧
    packPixel (grayColor iy) = ((iy <<< 16) ||| (iy <<< 8)) ||| iy := by
  refine ⟨imageFeatures_getElem w h f x y hx hy, ?_, ?_⟩
  · show (((r * 257) >>> 8 <<< 16) ||| ((g * 257) >>> 8 <<< 8)) ||| ((b * 257) >>> 8) = _
    rw [mul257_shiftRight r hr, mul257_shiftRight g hg, mul257_shiftRight b hb]
  · show (((iy * 257) >>> 8 <<< 16) ||| ((iy * 257) >>> 8 <<< 8)) ||| ((iy * 257) >>> 8) = _
    rw [mul257_shiftRight iy hiy]

theorem pixel_packing_rowmajor_witness :
    (imageFeatures 2 2 (fun _ _ => nrgbaOpaque 9 8 7))[1 * 2 + 1]? =
      some (packPixel (nrgbaOpaque 9 8 7)) ∧
    packPixel (nrgbaOpaque 9 8 7) = ((9 <<< 16) ||| (8 <<< 8)) ||| 7 ∧
    packPixel (grayColor 1) = ((1 <<< 16) ||| (1 <<< 8)) ||| 1 :=
  pixel_packing_rowmajor 2 2 (fun _ _ => nrgbaOpaque 9 8 7) 1 1 9 8 7 1
    (by decide) (by decide) (by decide) (by decide) (by decide) (by decide)

lemma keptPart_length (L : Nat) (iv : List Int) :
    (keptPart L iv).length = min iv.length L := by
  simp only [keptPart, List.length_drop]
  omega

/-- One appendInterval step preserves the window invariant: the buffer keeps
length L, the live count is min of the decoded-stream length and L, and the
live part of the buffer is the suffix of the decoded stream of that length. -/
lemma appendInterval_inv (L : Nat) (st : WindowState) (d iv : List Int)
    (h1 : st.buf.length = L) (h2 : st.count = min d.length L)
    (h3 : st.buf.take st.count = d.drop (d.length - st.count)) :
    (appendInterval L st iv).buf.length = L ∧
    (appendInterval L st iv).count = min (d ++ keptPart L iv).length L ∧
    (appendInterval L st iv).buf.take (appendInterval L st iv).count =
      (d ++ keptPart L iv).drop
        ((d ++ keptPart L iv).length - (appendInterval L st iv).count) := by
  have hsc : (if iv.length > L then L else iv.length) = min iv.length L := by
    split <;> omega
  have hkl : (keptPart L iv).length = min iv.length L := keptPart_length L iv
  have hdl : (d ++ keptPart L iv).length = d.length + min iv.length L := by
    simp [hkl]
  have hsc_le_L : min iv.length L ≤ L := Nat.min_le_right _ _
  have hc_le_L : st.count ≤ L := by omega
  have hc_le_d : st.count ≤ d.length := by omega
  simp only [appendInterval, hsc]
  rw [show iv.drop (iv.length - min iv.length L) = keptPart L iv from rfl]
  split
  case isTrue hcase =>
    -- overrun: live samples shifted down by n, then the interval written
    dsimp only
    set sc := min iv.length L with hscdef
    set c := st.count with hcdef
    set n := c + sc - L with hndef
    have hn_le_c : n ≤ c := by omega
    have hn_le_L : n ≤ L := by omega
    have hshift_len : (st.buf.drop n ++ st.buf.drop (L - n)).length = L := by
      simp only [List.length_append, List.length_drop, h1]
      omega
    refine ⟨?_, ?_, ?_⟩
    · simp only [List.length_append, List.length_take, List.length_drop,
        hshift_len, hkl]
      omega
    · rw [hdl]; omega
    · have hcount : c - n + sc = L := by omega
      rw [hcount]
      have hblen : ((st.buf.drop n ++ st.buf.drop (L - n)).take (c - n) ++
          keptPart L iv ++ (st.buf.drop n ++ st.buf.drop (L - n)).drop L).length
          = L := by
        simp only [List.length_append, List.length_take, List.length_drop,
          hshift_len, hkl]
        omega
      rw [List.take_of_length_le (le_of_eq hblen)]
      have hdropnil : (st.buf.drop n ++ st.buf.drop (L - n)).drop L = [] :=
        List.drop_eq_nil_of_le (by rw [hshift_len])
      rw [hdropnil, List.append_nil]
      have htk : (st.buf.drop n ++ st.buf.drop (L - n)).take (c - n) =
          (st.buf.drop n).take (c - n) := by
        rw [List.take_append_eq_append_take]
        have hz0 : c - n - (st.buf.drop n).length = 0 := by
          simp only [List.length_drop, h1]; omega
        rw [hz0]
        simp
      rw [htk]
      have htk2 : (st.buf.drop n).take (c - n) = (st.buf.take c).drop n := by
        rw [List.drop_take]
      rw [htk2, h3, List.drop_drop, List.drop_append_eq_append_drop]
      have hz : d.length + sc - L - d.length = 0 := by omega
      rw [hdl, hz]
      simp only [List.drop_zero]
      have hidx : d.length - c + n = d.length + sc - L := by omega
      rw [hidx]
  case isFalse hcase =>
    -- the interval fits after the live samples
    dsimp only
    set sc := min iv.length L with hscdef
    set c := st.count with hcdef
    refine ⟨?_, ?_, ?_⟩
    · simp only [List.length_append, List.length_take, List.length_drop, h1, hkl]
      omega
    · rw [hdl]; omega
    · have hAlen : (st.buf.take c).length = c := by
        simp only [List.length_take, h1]; omega
      rw [List.append_assoc, List.take_append_eq_append_take, hAlen]
      have hA : (st.buf.take c).take (c + sc) = st.buf.take c :=
        List.take_of_length_le (by rw [hAlen]; omega)
      have hz : c + sc - c = sc := by omega
      rw [hA, hz, List.take_append_eq_append_take, hkl]
      have hz2 : sc - min iv.length L = 0 := by omega
      rw [hz2]
      simp only [List.take_zero, List.append_nil]
      have hkept : (keptPart L iv).take sc = keptPart L iv :=
        List.take_of_length_le (by rw [hkl])
      rw [hkept, List.drop_append_eq_append_drop, hdl]
      have hz3 : d.length + sc - (c + sc) - d.length = 0 := by omega
      have hz4 : d.length + sc - (c + sc) = d.length - c := by omega
      rw [hz3, hz4, List.drop_zero, h3]

/-- The window invariant extended along a whole run of interval appends. -/
lemma windowRun_inv (L : Nat) (ivs : List (List Int)) (st : WindowState) (d : List Int)
    (h1 : st.buf.length = L) (h2 : st.count = min d.length L)
    (h3 : st.buf.take st.count = d.drop (d.length - st.count)) :
    ((ivs.foldl (appendInterval L) st).buf.length = L ∧
     (ivs.foldl (appendInterval L) st).count =
       min (d ++ (ivs.map (keptPart L)).flatten).length L ∧
     (ivs.foldl (appendInterval L) st).buf.take (ivs.foldl (appendInterval L) st).count =
       (d ++ (ivs.map (keptPart L)).flatten).drop
         ((d ++ (ivs.map (keptPart L)).flatten).length -
           (ivs.foldl (appendInterval L) st).count)) := by
  induction ivs generalizing st d with
  | nil => simpa using ⟨h1, h2, h3⟩
  | cons iv ivs ih =>
    obtain ⟨g1, g2, g3⟩ := appendInterval_inv L st d iv h1 h2 h3
    have hrec := ih (appendInterval L st iv) (d ++ keptPart L iv) g1 g2 g3
    simpa [List.append_assoc] using hrec

/-- Length of the decoded stream: each interval of length isc contributes
min isc L samples. -/
lemma keptPart_flatten_length (L isc : Nat) (ivs : List (List Int))
    (hlen : ∀ iv ∈ ivs, iv.length = isc) :
    ((ivs.map (keptPart L)).flatten).length = ivs.length * min isc L := by
  induction ivs with
  | nil => simp
  | cons iv rest ih =>
    simp only [List.map_cons, List.flatten_cons, List.length_append, List.length_cons]
    rw [keptPart_length, hlen iv (by simp),
      ih (fun x hx => hlen x (List.mem_cons_of_mem iv hx)), Nat.succ_mul]
    omega

/-- When every interval fits in the window, nothing is discarded before
decoding. -/
lemma map_keptPart_id (L isc : Nat) (hisc : isc ≤ L) (ivs : List (List Int))
    (hlen : ∀ iv ∈ ivs, iv.length = isc) : ivs.map (keptPart L) = ivs := by
  induction ivs with
  | nil => rfl
  | cons iv rest ih =>
    simp only [List.map_cons]
    rw [ih (fun x hx => hlen x (List.mem_cons_of_mem iv hx))]
    congr 1
    simp [keptPart, hlen iv (by simp), Nat.min_eq_left hisc]

/-- Claim C5: for every sequence of K consecutive interval reads of equal
sample count isc appended by the audio capture activity, with K * isc at
least InputFeaturesCount (= L), the sliding window buffer holds exactly the
most recent L samples of the stream in chronological order (older samples
evicted FIFO), whether or not K * isc exceeds the window length and whether
or not a single interval exceeds the window length. -/
theorem audio_window_most_recent (L isc : Nat) (hL : 0 < L)
    (intervals : List (List Int)) (hlen : ∀ iv ∈ intervals, iv.length = isc)
    (hK : L ≤ intervals.length * isc) :
    (audioWindowRun L intervals).count = L ∧
    (audioWindowRun L intervals).buf =
      intervals.flatten.drop (intervals.flatten.length - L) := by
  have hbase1 : (List.replicate L (0 : Int)).length = L := by simp
  have hbase2 : (0 : Nat) = min ([] : List Int).length L := by simp
  obtain ⟨g1, g2, g3⟩ := windowRun_inv L intervals ⟨List.replicate L 0, 0⟩ [] hbase1
    hbase2 (by simp)
  rw [show intervals.foldl (appendInterval L) ⟨List.replicate L 0, 0⟩ =
    audioWindowRun L intervals from rfl] at g1 g2 g3
  simp only [List.nil_append] at g2 g3
  have hdlen : ((intervals.map (keptPart L)).flatten).length =
      intervals.length * min isc L := keptPart_flatten_length L isc intervals hlen
  have hKpos : 0 < intervals.length := by
    rcases Nat.eq_zero_or_pos intervals.length with h0 | h0
    · rw [h0] at hK; simp at hK; omega
    · exact h0
  have hge : L ≤ intervals.length * min isc L := by
    rcases Nat.le_total isc L with h | h
    · rw [Nat.min_eq_left h]; exact hK
    · rw [Nat.min_eq_right h]
      exact Nat.le_mul_of_pos_left L hKpos
  have hcount : (audioWindowRun L intervals).count = L := by
    rw [g2, hdlen]; omega
  refine ⟨hcount, ?_⟩
  have hbuf : (audioWindowRun L intervals).buf =
      ((intervals.map (keptPart L)).flatten).drop
        (((intervals.map (keptPart L)).flatten).length - L) := by
    rw [hcount] at g3
    rw [← List.take_of_length_le (le_of_eq g1)]
    exact g3
  rw [hbuf]
  rcases Nat.le_total isc L with hisc | hisc
  · rw [map_keptPart_id L isc hisc intervals hlen]
  · obtain hnil | ⟨ivsInit, lst, hconcat⟩ := intervals.eq_nil_or_concat
    · rw [hnil] at hKpos; simp at hKpos
    · rw [List.concat_eq_append] at hconcat
      subst hconcat
      have hlst : lst.length = isc := hlen lst (by simp)
      have hkept_lst_len : (keptPart L lst).length = L := by
        rw [keptPart_length, hlst, Nat.min_eq_right hisc]
      have hkept_lst : keptPart L lst = lst.drop (isc - L) := by
        rw [keptPart, hlst, Nat.min_eq_right hisc]
      have hflat : (ivsInit ++ [lst]).flatten = ivsInit.flatten ++ lst := by simp
      have hmapflat : ((ivsInit ++ [lst]).map (keptPart L)).flatten =
          (ivsInit.map (keptPart L)).flatten ++ keptPart L lst := by simp
      rw [hflat, hmapflat]
      rw [List.drop_append_eq_append_drop, List.drop_append_eq_append_drop]
      have hd1 : (ivsInit.flatten ++ lst).length - L ≥ ivsInit.flatten.length := by
        simp only [List.length_append, hlst]
        omega
      have hd2 : ((ivsInit.map (keptPart L)).flatten ++ keptPart L lst).length - L ≥
          (ivsInit.map (keptPart L)).flatten.length := by
        simp only [List.length_append, hkept_lst_len]
        omega
      rw [List.drop_eq_nil_of_le hd1, List.drop_eq_nil_of_le hd2]
      simp only [List.nil_append]
      have hidx1 : (ivsInit.flatten ++ lst).length - L - ivsInit.flatten.length
          = isc - L := by
        simp only [List.length_append, hlst]; omega
      have hidx2 : ((List.map (keptPart L) ivsInit).flatten ++ keptPart L lst).length - L -
          (List.map (keptPart L) ivsInit).flatten.length = 0 := by
        simp only [List.length_append, hkept_lst_len]; omega
      rw [hidx1, hidx2, List.drop_zero, hkept_lst]

theorem audio_window_most_recent_witness :
    (audioWindowRun 3 [[1, 2], [3, 4]]).count = 3 ∧
    (audioWindowRun 3 [[1, 2], [3, 4]]).buf =
      ([[1, 2], [3, 4]] : List (List Int)).flatten.drop
        (([[1, 2], [3, 4]] : List (List Int)).flatten.length - 3) :=
  audio_window_most_recent 3 2 (by decide) [[1, 2], [3, 4]] (by decide) (by decide)

lemma blk_tag (t : Bool) (p : ThreadPC) : ∀ e ∈ blk t p, e.1 = t := by
  cases p <;> simp [blk]

lemma mutexInv_init : MutexInv mutexInit := by
  constructor
  · intro t
    cases t <;> simp [mutexInit, getPC, inCS]
  · exact ⟨true, by simp [mutexInit, getPC, blk], by simp [mutexInit, getPC, blk]⟩

lemma mutexInv_step {s s2 : MutexState} (h : MutexStep s s2) (hinv : MutexInv s) :
    MutexInv s2 := by
  obtain ⟨hown, w, hlog, hcond⟩ := hinv
  cases h with
  | lock t hpc hfree =>
    have hno : ∀ u : Bool, inCS (getPC s u) = false := by
      intro u
      cases hcs : inCS (getPC s u)
      · rfl
      · have h2 := (hown u).2 hcs
        rw [hfree] at h2
        exact absurd h2 (by simp)
    have hnoF := hno false
    have hnoT := hno true
    refine ⟨?_, ?_⟩
    · intro u
      cases u <;> cases t <;> simp_all [getPC, setPC, inCS]
    · cases t
      · -- thread false locks
        simp only [getPC] at hpc
        have hother : s.pcT = .start ∨ s.pcT = .finished := by
          cases hT : s.pcT <;> simp_all [getPC, inCS]
        rcases hother with h2 | h2
        · have hlog0 : s.log = [] := by
            cases w <;> simp_all [getPC, blk]
          exact ⟨false, by simp [getPC, setPC, hlog0, blk, hpc, h2],
            by simp [getPC, setPC, blk, h2]⟩
        · have hlog1 : s.log = blk true .finished := by
            cases w <;> simp_all [getPC, blk]
          exact ⟨true, by simp [getPC, setPC, hlog1, blk, h2],
            by simp [getPC, setPC, blk]⟩
      · -- thread true locks
        simp only [getPC] at hpc
        have hother : s.pcF = .start ∨ s.pcF = .finished := by
          cases hF : s.pcF <;> simp_all [getPC, inCS]
        rcases hother with h2 | h2
        · have hlog0 : s.log = [] := by
            cases w <;> simp_all [getPC, blk]
          exact ⟨true, by simp [getPC, setPC, hlog0, blk, hpc, h2],
            by simp [getPC, setPC, blk, h2]⟩
        · have hlog1 : s.log = blk false .finished := by
            cases w <;> simp_all [getPC, blk]
          exact ⟨false, by simp [getPC, setPC, hlog1, blk, h2],
            by simp [getPC, setPC, blk]⟩
  | write t hpc =>
    have hcsT : inCS (getPC s t) = true := by rw [hpc]; rfl
    have howner : s.owner = some t := (hown t).2 hcsT
    have hotherNo : inCS (getPC s (!t)) = false := by
      cases hcs : inCS (getPC s (!t))
      · rfl
      · have h2 := (hown (!t)).2 hcs
        rw [howner] at h2
        cases t <;> simp_all
    refine ⟨?_, ?_⟩
    · intro u
      cases u <;> cases t <;> simp_all [getPC, setPC, inCS]
    · cases t
      · simp only [getPC] at hpc
        have hother : s.pcT = .start ∨ s.pcT = .finished := by
          cases hT : s.pcT <;> simp_all [getPC, inCS]
        rcases hother with h2 | h2
        · have hlog0 : s.log = [] := by
            cases w <;> simp_all [getPC, blk]
          exact ⟨false, by simp [getPC, setPC, hlog0, blk, h2],
            by simp [getPC, setPC, blk, h2]⟩
        · have hlog1 : s.log = blk true .finished := by
            cases w <;> simp_all [getPC, blk]
          exact ⟨true, by simp [getPC, setPC, hlog1, blk, h2],
            by simp [getPC, setPC, blk, h2]⟩
      · simp only [getPC] at hpc
        have hother : s.pcF = .start ∨ s.pcF = .finished := by
          cases hF : s.pcF <;> simp_all [getPC, inCS]
        rcases hother with h2 | h2
        · have hlog0 : s.log = [] := by
            cases w <;> simp_all [getPC, blk]
          exact ⟨true, by simp [getPC, setPC, hlog0, blk, h2],
            by simp [getPC, setPC, blk, h2]⟩
        · have hlog1 : s.log = blk false .finished := by
            cases w <;> simp_all [getPC, blk]
          exact ⟨false, by simp [getPC, setPC, hlog1, blk, h2],
            by simp [getPC, setPC, blk, h2]⟩
  | read t hpc =>
    have hcsT : inCS (getPC s t) = true := by rw [hpc]; rfl
    have howner : s.owner = some t := (hown t).2 hcsT
    have hotherNo : inCS (getPC s (!t)) = false := by
      cases hcs : inCS (getPC s (!t))
      · rfl
      · have h2 := (hown (!t)).2 hcs
        rw [howner] at h2
        cases t <;> simp_all
    refine ⟨?_, ?_⟩
    · intro u
      cases u <;> cases t <;> simp_all [getPC, setPC, inCS]
    · cases t
      · simp only [getPC] at hpc
        have hother : s.pcT = .start ∨ s.pcT = .finished := by
          cases hT : s.pcT <;> simp_all [getPC, inCS]
        rcases hother with h2 | h2
        · have hlog0 : s.log = [(false, WireOp.writeReq)] := by
            cases w <;> simp_all [getPC, blk]
          exact ⟨false, by simp [getPC, setPC, hlog0, blk, h2],
            by simp [getPC, setPC, blk, h2]⟩
        · have hlog1 : s.log = blk true .finished ++ [(false, WireOp.writeReq)] := by
            cases w <;> simp_all [getPC, blk]
          exact ⟨true, by simp [getPC, setPC, hlog1, blk, h2],
            by simp [getPC, setPC, blk, h2]⟩
      · simp only [getPC] at hpc
        have hother : s.pcF = .start ∨ s.pcF = .finished := by
          cases hF : s.pcF <;> simp_all [getPC, inCS]
        rcases hother with h2 | h2
        · have hlog0 : s.log = [(true, WireOp.writeReq)] := by
            cases w <;> simp_all [getPC, blk]
          exact ⟨true, by simp [getPC, setPC, hlog0, blk, h2],
            by simp [getPC, setPC, blk, h2]⟩
        · have hlog1 : s.log = blk false .finished ++ [(true, WireOp.writeReq)] := by
            cases w <;> simp_all [getPC, blk]
          exact ⟨false, by simp [getPC, setPC, hlog1, blk, h2],
            by simp [getPC, setPC, blk, h2]⟩
  | unlock t hpc =>
    have hcsT : inCS (getPC s t) = true := by rw [hpc]; rfl
    have howner : s.owner = some t := (hown t).2 hcsT
    have hotherNo : inCS (getPC s (!t)) = false := by
      cases hcs : inCS (getPC s (!t))
      · rfl
      · have h2 := (hown (!t)).2 hcs
        rw [howner] at h2
        cases t <;> simp_all
    refine ⟨?_, ?_⟩
    · intro u
      cases u <;> cases t <;> simp_all [getPC, setPC, inCS]
    · cases t
      · simp only [getPC] at hpc
        have hother : s.pcT = .start ∨ s.pcT = .finished := by
          cases hT : s.pcT <;> simp_all [getPC, inCS]
        rcases hother with h2 | h2
        · have hlog0 : s.log = blk false .readDone := by
            cases w <;> simp_all [getPC, blk]
          exact ⟨false, by simp [getPC, setPC, hlog0, blk, h2],
            by simp [getPC, setPC, blk, h2]⟩
        · have hlog1 : s.log = blk true .finished ++ blk false .readDone := by
            cases w <;> simp_all [getPC, blk]
          exact ⟨true, by simp [getPC, setPC, hlog1, blk, h2],
            by simp [getPC, setPC, blk, h2]⟩
      · simp only [getPC] at hpc
        have hother : s.pcF = .start ∨ s.pcF = .finished := by
          cases hF : s.pcF <;> simp_all [getPC, inCS]
        rcases hother with h2 | h2
        · have hlog0 : s.log = blk true .readDone := by
            cases w <;> simp_all [getPC, blk]
          exact ⟨true, by simp [getPC, setPC, hlog0, blk, h2],
            by simp [getPC, setPC, blk, h2]⟩
        · have hlog1 : s.log = blk false .finished ++ blk true .readDone := by
            cases w <;> simp_all [getPC, blk]
          exact ⟨false, by simp [getPC, setPC, hlog1, blk, h2],
            by simp [getPC, setPC, blk, h2]⟩

lemma mutexReachable_inv (s : MutexState) (h : MutexReachable s) : MutexInv s := by
  induction h with
  | refl => exact mutexInv_init
  | tail hsteps hstep ih => exact mutexInv_step hstep ih

/-- Claim C9: for every reachable state of two concurrent Classify callers on
the same Runner, at most one of them is inside the request-response critical
section (at most one transaction in flight), and the transport log the model
process observes is serialized: one caller's request-response events form a
contiguous block, never interleaved with the other's. -/
theorem classify_serialized (s : MutexState) (h : MutexReachable s) :
    (¬ (inCS (getPC s false) = true ∧ inCS (getPC s true) = true)) ∧
    Serialized s.log := by
  obtain ⟨hown, w, hlog, hcond⟩ := mutexReachable_inv s h
  constructor
  · rintro ⟨hF, hT⟩
    have h1 := (hown false).2 hF
    have h2 := (hown true).2 hT
    rw [h1] at h2
    exact absurd (Option.some.inj h2) (by simp)
  · exact ⟨w, blk w (getPC s w), blk (!w) (getPC s (!w)), hlog,
      blk_tag w (getPC s w), blk_tag (!w) (getPC s (!w))⟩

theorem classify_serialized_witness :
    (¬ (inCS (getPC (⟨.wrote, .start, some false, [(false, .writeReq)]⟩ : MutexState) false)
          = true ∧
        inCS (getPC (⟨.wrote, .start, some false, [(false, .writeReq)]⟩ : MutexState) true)
          = true)) ∧
    Serialized [(false, WireOp.writeReq)] := by
  have hreach : MutexReachable
      (⟨.wrote, .start, some false, [(false, .writeReq)]⟩ : MutexState) :=
    Relation.ReflTransGen.tail
      (Relation.ReflTransGen.tail Relation.ReflTransGen.refl
        (MutexStep.lock mutexInit false rfl rfl))
      (MutexStep.write _ false rfl)
  exact classify_serialized _ hreach

end EdgeImpulse
